import Mathlib

/-!
Verification development for the libqi core: a shallow embedding of the
dynamic value system (`src/genericvalue.cpp`), the property setters
(`qitype/details/property.hxx`), the file log handler
(`src/fileloghandler.cpp`) and the URL resolution pipeline
(`tests/messaging/net/test_resolve.cpp` and spec sections 4.F, 6).

Machine integers are modelled as `Int`/`Nat` with explicit range checks;
storage pointers are modelled as natural-number addresses; fallible code
returns `Option` or a null-value sentinel, mirroring the C++
null-descriptor convention.
-/

namespace LibQi

/-- The closed set of type kinds (spec section 3; the `Type::Kind` tag used
throughout `genericvalue.cpp`).  The numeric order of the tags, used by
`operator<` as a cross-kind tie breaker (`genericvalue.cpp:357`), is modelled
from the spec, which lists the kinds in this order. -/
inductive Kind where
  | kVoid | kInt | kFloat | kString | kList | kMap | kTuple
  | kPointer | kObject | kDynamic | kRaw | kIterator | kUnknown
deriving DecidableEq, Repr

/-- Numeric value of the kind tag (used for `ka < kb` in `operator<`). -/
def Kind.toNat : Kind → Nat
  | .kVoid => 0 | .kInt => 1 | .kFloat => 2 | .kString => 3
  | .kList => 4 | .kMap => 5 | .kTuple => 6 | .kPointer => 7
  | .kObject => 8 | .kDynamic => 9 | .kRaw => 10 | .kIterator => 11
  | .kUnknown => 12

/-- A type descriptor (`Type*` in the source).  Each distinct `Ty` value is a
distinct descriptor; descriptor identity (`type == targetType`) and
`TypeInfo` equality (`type->info() == targetType->info()`) are both modelled
as equality of `Ty` values.  `Int` descriptors carry signedness and bit
width; `obj`, `iter` and `unknown` carry an opaque `TypeInfo` fingerprint. -/
inductive Ty where
  | void
  | int (signed : Bool) (nbits : Nat)
  | float
  | str
  | list (elem : Ty)
  | map (key elem : Ty)
  | tuple (members : List Ty)
  | obj (info : Nat)
  | pointer (pointed : Ty)
  | dyn
  | raw
  | iter (info : Nat)
  | unknown (info : Nat)

mutual
/-- Structural equality of type descriptors.  The source compares
descriptors either by instance pointer (`type == targetType`) or by
`TypeInfo` fingerprint (`type->info() == targetType->info()`); both are
modelled by this equality on `Ty`. -/
def tyBeq : Ty → Ty → Bool
  | .void, .void => true
  | .int s n, .int t m => s == t && n == m
  | .float, .float => true
  | .str, .str => true
  | .list e, .list f => tyBeq e f
  | .map k e, .map l f => tyBeq k l && tyBeq e f
  | .tuple ms, .tuple ns => tyBeqList ms ns
  | .obj i, .obj j => i == j
  | .pointer p, .pointer q => tyBeq p q
  | .dyn, .dyn => true
  | .raw, .raw => true
  | .iter i, .iter j => i == j
  | .unknown i, .unknown j => i == j
  | _, _ => false

/-- Elementwise `tyBeq` on descriptor lists (tuple member types). -/
def tyBeqList : List Ty → List Ty → Bool
  | [], [] => true
  | a :: as, b :: bs => tyBeq a b && tyBeqList as bs
  | _, _ => false
end

/-- Kind of a type descriptor (`Type::kind()`). -/
def Ty.kind : Ty → Kind
  | .void => .kVoid
  | .int _ _ => .kInt
  | .float => .kFloat
  | .str => .kString
  | .list _ => .kList
  | .map _ _ => .kMap
  | .tuple _ => .kTuple
  | .obj _ => .kObject
  | .pointer _ => .kPointer
  | .dyn => .kDynamic
  | .raw => .kRaw
  | .iter _ => .kIterator
  | .unknown _ => .kUnknown

/-- A `GenericValuePtr`: a (descriptor, storage) pair.  `null` is the
null-descriptor sentinel `GenericValuePtr()`.  Kinds whose `operator<`
compares the raw storage pointers (`a.value < b.value`,
`genericvalue.cpp:402-409`) carry an explicit storage address `addr : Nat`;
value-compared kinds carry their contents directly.  Strings and raw buffers
hold their byte contents as `List Nat`; floats are modelled as rationals.
Map storage holds, for each entry, the address of the key/value pair cell
(the storage handle of the pair obtained by dereferencing a map iterator)
together with the key and the value. -/
inductive Value where
  | null
  | vvoid
  | vint (signed : Bool) (nbits : Nat) (v : Int)
  | vfloat (v : Rat)
  | vstr (bytes : List Nat)
  | vlist (elem : Ty) (xs : List Value)
  | vmap (key elem : Ty) (entries : List (Nat × Value × Value))
  | vtuple (members : List Ty) (addr : Nat) (xs : List Value)
  | vobj (info : Nat) (addr : Nat)
  | vptr (pointed : Ty) (addr : Nat) (pointee : Value)
  | vdyn (addr : Nat) (inner : Value)
  | vraw (addr : Nat) (bytes : List Nat)
  | viter (info : Nat) (addr : Nat) (pos : Nat)
  | vunknown (info : Nat) (addr : Nat)

/-- `!this->type`: the null-descriptor test. -/
def isNull : Value → Bool
  | .null => true
  | _ => false

/-- The descriptor of a value (`this->type`); `none` for the null value. -/
def tyOf : Value → Option Ty
  | .null => none
  | .vvoid => some .void
  | .vint s n _ => some (.int s n)
  | .vfloat _ => some .float
  | .vstr _ => some .str
  | .vlist e _ => some (.list e)
  | .vmap k e _ => some (.map k e)
  | .vtuple ts _ _ => some (.tuple ts)
  | .vobj i _ => some (.obj i)
  | .vptr p _ _ => some (.pointer p)
  | .vdyn _ _ => some .dyn
  | .vraw _ _ => some .raw
  | .viter i _ _ => some (.iter i)
  | .vunknown i _ => some (.unknown i)

/-- Kind of a (non-null) value; the null value is handled before any kind
dispatch in the source, so its kind here is arbitrary. -/
def kindOf : Value → Kind
  | .null => .kVoid
  | .vvoid => .kVoid
  | .vint _ _ _ => .kInt
  | .vfloat _ => .kFloat
  | .vstr _ => .kString
  | .vlist _ _ => .kList
  | .vmap _ _ _ => .kMap
  | .vtuple _ _ _ => .kTuple
  | .vobj _ _ => .kObject
  | .vptr _ _ _ => .kPointer
  | .vdyn _ _ => .kDynamic
  | .vraw _ _ => .kRaw
  | .viter _ _ _ => .kIterator
  | .vunknown _ _ => .kUnknown

/-- Storage address of the kinds compared by raw pointer in `operator<`. -/
def addrOf : Value → Nat
  | .vtuple _ a _ => a
  | .vobj _ a => a
  | .vptr _ a _ => a
  | .vdyn a _ => a
  | .vraw a _ => a
  | .viter _ a _ => a
  | .vunknown _ a => a
  | _ => 0

/-- `memcmp(ca, cb, n) < 0` on two equal-length byte sequences: the first
differing byte decides (`genericvalue.cpp:372-373`). -/
def bytesLt : List Nat → List Nat → Bool
  | [], _ => false
  | _ :: _, [] => false
  | a :: as, b :: bs => if a < b then true else if b < a then false else bytesLt as bs

/-- Lexicographic comparison of the stored pair-cell addresses of two
equal-length maps.  Dereferencing a map iterator yields the key/value pair
as a Tuple-kind value, and Tuple-kind values compare by storage pointer
(`genericvalue.cpp:402-409`), so the element-wise loop of
`genericvalue.cpp:388-399` degenerates, for maps, to comparing the pair-cell
addresses in order. -/
def addrLex : List Nat → List Nat → Bool
  | [], _ => false
  | _ :: _, [] => false
  | a :: as, b :: bs => if a < b then true else if b < a then false else addrLex as bs

mutual
/-- `operator<(GenericValuePtr, GenericValuePtr)` (`genericvalue.cpp:329-413`).

Null handling follows lines 333-336.  The same-descriptor fast path
(lines 340-345) delegates to `Type::less`, which is not under `src/`; it is
modelled from the spec's total-ordering recipe ("within a kind, numeric
compare on Int/Float, memcmp on String, lexicographic for List/Map,
pointer-level for the opaque kinds"), which coincides with the same-kind
switch of lines 359-409, so both paths are rendered by the single kind
dispatch below.  Strings are excluded from the fast path in the source and
take the memcmp branch either way.  Cross-kind pairs use the numeric
Int/Float comparisons of lines 352-355, otherwise the kind-tag order
(line 357). -/
def vlt : Value → Value → Bool
  | .null, b => !(isNull b)            -- if (!a.type) return b.type;
  | _, .null => false                  -- if (!b.type) return false;
  | a, b =>
    if kindOf a ≠ kindOf b then
      match a, b with
      | .vint _ _ x, .vfloat q => decide ((x : Rat) < q)
      | .vfloat q, .vint _ _ y => decide (q < (y : Rat))
      | a, b => decide ((kindOf a).toNat < (kindOf b).toNat)
    else
      match a, b with
      | .vvoid, .vvoid => false
      | .vint _ _ x, .vint _ _ y => decide (x < y)
      | .vfloat x, .vfloat y => decide (x < y)
      | .vstr x, .vstr y =>
          if x.length = y.length then bytesLt x y else decide (x.length < y.length)
      | .vlist _ xs, .vlist _ ys =>
          if xs.length = ys.length then vltList xs ys else decide (xs.length < ys.length)
      | .vmap _ _ xs, .vmap _ _ ys =>
          if xs.length = ys.length then addrLex (xs.map (·.1)) (ys.map (·.1))
          else decide (xs.length < ys.length)
      | a, b => decide (addrOf a < addrOf b)
termination_by a b => sizeOf a + sizeOf b
decreasing_by all_goals simp_arith

/-- The element-wise loop of `genericvalue.cpp:388-399` on two equal-length
lists: advance while neither element is less than the other. -/
def vltList : List Value → List Value → Bool
  | [], _ => false
  | _ :: _, [] => false
  | a :: as, b :: bs => if vlt a b then true else if vlt b a then false else vltList as bs
termination_by xs ys => sizeOf xs + sizeOf ys
decreasing_by all_goals simp_arith
end

/-- The guard of `operator==` (`genericvalue.cpp:421-422`): both operands of
Iterator kind with matching `TypeInfo`. -/
def sameInfoIter : Value → Value → Bool
  | .viter i _ _, .viter j _ _ => i = j
  | _, _ => false

/-- `TypeIterator::equals` is not under `src/`.  Modelled from the spec:
iterator equality is structural ("equality is structural
(`descriptor.equals(a,b)`)"), comparing the position the iterator denotes,
not its storage address; this is what makes `it != end` loops terminate. -/
def iterEquals : Value → Value → Bool
  | .viter _ _ p, .viter _ _ q => p = q
  | _, _ => false

/-- `operator==(GenericValuePtr, GenericValuePtr)` (`genericvalue.cpp:419-428`). -/
def veq (a b : Value) : Bool :=
  if sameInfoIter a b then iterEquals a b
  else !(vlt a b) && !(vlt b a)

/-- Exactly one of three Booleans is true. -/
def exactlyOne (x y z : Bool) : Bool :=
  (x && !y && !z) || (!x && y && !z) || (!x && !y && z)

/-! ## The conversion engine (`GenericValuePtr::convert`, `genericvalue.cpp:16-318`)

The engine is instrumented for resource accounting: `owned` counts every
value handed out with `mustDestroy = true` anywhere in the call tree, and
`destroyed` counts every `destroy()` call executed; `fresh` supplies storage
addresses.  The recursion carries explicit fuel (structural recursion
through `_append`/`_insert` re-enters `convert` on freshly built values);
all concrete evaluations below use ample fuel. -/

/-- Allocation/destruction accounting for a `convert` call tree. -/
structure CState where
  fresh : Nat
  owned : Nat
  destroyed : Nat
deriving DecidableEq, Repr

/-- The initial accounting state. -/
def st0 : CState := ⟨0, 0, 0⟩

/-- Result of `convert`: the `(result, mustDestroy)` pair plus accounting. -/
abbrev CRes := (Value × Bool) × CState

/-- Return an owning result (`std::make_pair(result, true)`). -/
def retOwn (v : Value) (s : CState) : CRes :=
  ((v, true), { s with owned := s.owned + 1 })

/-- Return a borrowing result (`std::make_pair(result, false)`). -/
def retBor (v : Value) (s : CState) : CRes := ((v, false), s)

/-- Return the failure sentinel (`std::make_pair(GenericValuePtr(), false)`). -/
def retFail (s : CState) : CRes := ((Value.null, false), s)

/-- A `destroy()` call; a no-op on the null value. -/
def vdestroy (v : Value) (s : CState) : CState :=
  match v with
  | .null => s
  | _ => { s with destroyed := s.destroyed + 1 }

/-- `initializeStorage`: hand out a fresh storage address. -/
def allocAddr (s : CState) : Nat × CState :=
  (s.fresh, { s with fresh := s.fresh + 1 })

/-- Modelled from the spec: the range check performed by
`GenericValuePtr::setInt` (the setter itself is not under `src/`): the
64-bit signed quantity must fit the target Int descriptor's
width/signedness, else the conversion fails. -/
def fitsSigned (signed : Bool) (nbits : Nat) (x : Int) : Bool :=
  if signed then decide (-(2 ^ (nbits - 1)) ≤ x ∧ x < 2 ^ (nbits - 1))
  else decide (0 ≤ x ∧ x < 2 ^ nbits)

/-- Modelled from the spec: the range check performed by `setUInt`. -/
def fitsUnsigned (signed : Bool) (nbits : Nat) (u : Nat) : Bool :=
  if signed then decide ((u : Int) < 2 ^ (nbits - 1))
  else decide ((u : Int) < 2 ^ nbits)

/-- The `(uint64_t)v` reinterpretation used on the unsigned path. -/
def toU64 (x : Int) : Nat := (x % 2 ^ 64).toNat

/-- Truncation toward zero: the `static_cast<int64_t>` the Int descriptor
applies to a double after the `setDouble` range check (modelled from the
spec). -/
def ratTrunc (q : Rat) : Int := q.num / (q.den : Int)

mutual
/-- `GenericValuePtr::convert(Type*)` (`genericvalue.cpp:16-318`).

The instance-pointer identity test of line 23 and the `TypeInfo` fallback of
line 312 are both rendered by the `tyBeq` identity test (descriptor instance
and fingerprint are conflated in this model).  The ObjectPtr proxy rule
(lines 264-276) consults the process-wide proxy generator map, which is
empty unless populated by registration; it is modelled as empty, so the rule
never fires.  `ObjectType::inherits` (lines 297-311) is not under `src/` and
is modelled from the spec with no registered inheritance relations, so the
inheritance offset lookup never succeeds. -/
def convert : Nat → Value → Ty → CState → CRes
  | 0, _, _, s => retFail s
  | fuel+1, v, t, s =>
    match tyOf v with
    | none => retFail s                      -- null-guard (lines 28-31)
    | some ts =>
      if tyBeq ts t then retBor v s          -- identity (lines 23-26)
      else
        match v, t with
        -- same kind, Float → Float (lines 40-45)
        | .vfloat q, .float => retOwn (.vfloat q) s
        -- same kind, Int → Int (lines 46-60); overflow checks bounce
        -- through setInt/setUInt (spec-modelled), then the raw int64 is stored
        | .vint sg _ x, .int s2 n2 =>
          if sg then
            if fitsSigned s2 n2 x then retOwn (.vint s2 n2 x) s else retFail s
          else
            if fitsUnsigned s2 n2 (toU64 x) then retOwn (.vint s2 n2 x) s else retFail s
        -- same kind, String → String (lines 61-71); the equal-info borrowing
        -- branch is subsumed by the identity path above, leaving the copy
        | .vstr bs, .str => retOwn (.vstr bs) s
        -- same kind, List → List (lines 72-97)
        | .vlist se xs, .list de =>
          let needConvert := !(tyBeq se de)
          let r := convList fuel needConvert de xs (.vlist de []) s
          retOwn r.1 r.2
        -- same kind, Map → Map (lines 99-139)
        | .vmap sk sv entries, .map dk dv =>
          convMap fuel (tyBeq sk dk) (tyBeq sv dv) dk dv entries (.vmap dk dv []) s
        -- same kind, Pointer → Pointer (lines 141-166)
        | .vptr sp _ pointee, .pointer dp =>
          if !(sp.kind == Kind.kObject && dp.kind == Kind.kObject) then
            -- exact-info match (line 149) is subsumed by the identity path,
            -- so the remaining outcome is failure (line 152)
            retFail s
          else
            let r := convert fuel pointee dp s
            if isNull r.1.1 then retFail r.2
            else
              -- if r.1.2: "assertion error, allocated converted reference"
              -- is logged (line 159) but nothing is raised
              let a := allocAddr r.2
              retBor (.vptr dp a.1 r.1.1) a.2  -- line 165: returns borrowing
        -- same kind, Tuple → Tuple (lines 168-205)
        | .vtuple _ _ xs, .tuple dTys =>
          if dTys.length ≠ xs.length then retFail s   -- line 175
          else
            match convTuple fuel xs dTys s with
            | (none, s1) => retFail s1       -- lines 186-190: error return;
                                             -- earlier owning members are not destroyed
            | (some ms, s1) =>
              let a := allocAddr s1          -- initializeStorage (line 195)
              let res := Value.vtuple dTys a.1 (ms.map (fun c => c.1))
              let s2 := ms.foldl (fun acc c => if c.2 then vdestroy c.1 acc else acc) a.2
              retOwn res s2                  -- lines 197-204
        -- same kind, Raw → Raw (lines 212-218)
        | .vraw _ bs, .raw =>
          let a := allocAddr s
          retOwn (.vraw a.1 bs) a.2
        -- cross kind, Float → Int (lines 223-231) via setDouble (spec-modelled)
        | .vfloat q, .int s2 n2 =>
          let i := ratTrunc q
          if fitsSigned s2 n2 i then retOwn (.vint s2 n2 i) s else retFail s
        -- cross kind, Int → Float (lines 232-241)
        | .vint sg _ x, .float =>
          retOwn (.vfloat (if sg then (x : Rat) else ((toU64 x : Int) : Rat))) s
        -- cross kind, String → Raw (lines 242-251)
        | .vstr bs, .raw =>
          let a := allocAddr s
          retOwn (.vraw a.1 bs) a.2
        -- cross kind, Raw → String fails (lines 252-256)
        | .vraw _ _, .str => retFail s
        -- target Dynamic: box the source (lines 257-263); this also renders
        -- the same-kind Dynamic case of lines 206-211, whose body is identical
        | w, .dyn =>
          let a := allocAddr s
          retOwn (.vdyn a.1 w) a.2
        -- source Dynamic: unwrap the inner value and reconvert (lines 277-282)
        | .vdyn _ inner, t2 => convert fuel inner t2 s
        -- Object → Pointer (lines 284-296)
        | .vobj i ad0, .pointer dp =>
          let r := convert fuel (.vobj i ad0) dp s
          if isNull r.1.1 then (r.1, r.2)    -- line 289: return gv as-is
          else
            let a := allocAddr r.2
            retBor (.vptr dp a.1 r.1.1) a.2  -- line 295: returns borrowing
        -- inheritance offset never found, info fallback subsumed: fail (line 317)
        | _, _ => retFail s

/-- The element loop of the List case (`genericvalue.cpp:82-95`), folding the
source elements into the freshly built target list `acc`. -/
def convList : Nat → Bool → Ty → List Value → Value → CState → Value × CState
  | 0, _, _, _, acc, s => (acc, s)
  | _+1, _, _, [], acc, s => (acc, s)
  | fuel+1, needConvert, de, x :: xs, acc, s =>
    if needConvert then
      let r := convert fuel x de s
      let ap := vappend fuel acc r.1.1 r.2   -- result._append(c.first) (line 91)
      let s2 := if r.1.2 then vdestroy r.1.1 ap.2 else ap.2
      convList fuel needConvert de xs ap.1 s2
    else
      let ap := vappend fuel acc x s         -- result._append(val) (line 87)
      convList fuel needConvert de xs ap.1 ap.2

/-- The entry loop of the Map case (`genericvalue.cpp:115-137`). -/
def convMap : Nat → Bool → Bool → Ty → Ty → List (Nat × Value × Value) → Value → CState → CRes
  | 0, _, _, _, _, _, _, s => retFail s
  | _+1, _, _, _, _, [], acc, s => retOwn acc s   -- line 138
  | fuel+1, sameKey, sameElem, dk, dv, (_, k, v) :: rest, acc, s =>
    if sameKey then
      if sameElem then
        let ip := vinsert fuel acc k v s
        convMap fuel sameKey sameElem dk dv rest ip.1 ip.2
      else
        let cv := convert fuel v dv s
        if isNull cv.1.1 then retFail cv.2          -- lines 129-130
        else
          let ip := vinsert fuel acc k cv.1.1 cv.2
          let s2 := if cv.1.2 then vdestroy cv.1.1 ip.2 else ip.2
          convMap fuel sameKey sameElem dk dv rest ip.1 s2
    else
      let ck := convert fuel k dk s
      if isNull ck.1.1 then retFail ck.2            -- lines 123-124
      else if sameElem then
        let ip := vinsert fuel acc ck.1.1 v ck.2
        let s2 := if ck.1.2 then vdestroy ck.1.1 ip.2 else ip.2
        convMap fuel sameKey sameElem dk dv rest ip.1 s2
      else
        let cv := convert fuel v dv ck.2
        if isNull cv.1.1 then retFail cv.2          -- lines 129-130: error return;
                                                    -- an owning converted key is not destroyed
        else
          let ip := vinsert fuel acc ck.1.1 cv.1.1 cv.2
          let s2 := if ck.1.2 then vdestroy ck.1.1 ip.2 else ip.2
          let s3 := if cv.1.2 then vdestroy cv.1.1 s2 else s2
          convMap fuel sameKey sameElem dk dv rest ip.1 s3

/-- The member loop of the Tuple case (`genericvalue.cpp:183-194`):
converts members pairwise, collecting `(value, mustDestroy)`; `none` on the
first member failure (after the conversions already performed). -/
def convTuple : Nat → List Value → List Ty → CState → Option (List (Value × Bool)) × CState
  | 0, _, _, s => (none, s)
  | _+1, [], [], s => (some [], s)
  | fuel+1, x :: xs, dt :: dts, s =>
    let r := convert fuel x dt s
    if isNull r.1.1 then (none, r.2)                -- lines 186-190
    else
      match convTuple fuel xs dts r.2 with
      | (none, s1) => (none, s1)
      | (some ms, s1) => (some (r.1 :: ms), s1)
  | _+1, _, _, s => (none, s)

/-- `GenericValuePtr::_append` (`genericvalue.cpp:524-533`): converts the
element to the list's element type, pushes the converted storage, destroys
the converted temporary if owning.  Called on non-lists it throws; inside
`convert` it is only called on lists, so that branch is a no-op here. -/
def vappend : Nat → Value → Value → CState → Value × CState
  | 0, lst, _, s => (lst, s)
  | fuel+1, lst, elem, s =>
    match lst with
    | .vlist e xs =>
      let r := convert fuel elem e s
      let lst2 := Value.vlist e (xs ++ [r.1.1])     -- pushBack (line 530)
      let s2 := if r.1.2 then vdestroy r.1.1 r.2 else r.2
      (lst2, s2)
    | _ => (lst, s)

/-- `GenericValuePtr::_insert` (`genericvalue.cpp:535-551`): converts key and
value to the map's key/element types when their descriptors differ, inserts
(the map copies both into a fresh pair cell), destroys owning temporaries. -/
def vinsert : Nat → Value → Value → Value → CState → Value × CState
  | 0, m, _, _, s => (m, s)
  | fuel+1, m, k, v, s =>
    match m with
    | .vmap kt vt entries =>
      let kSame := match tyOf k with | some ts => tyBeq ts kt | none => false
      let ck := if kSame then ((k, false), s) else convert fuel k kt s
      let vSame := match tyOf v with | some ts => tyBeq ts vt | none => false
      let cv := if vSame then ((v, false), ck.2) else convert fuel v vt ck.2
      let a := allocAddr cv.2
      let m2 := Value.vmap kt vt (entries ++ [(a.1, ck.1.1, cv.1.1)])
      let s2 := if ck.1.2 then vdestroy ck.1.1 a.2 else a.2
      let s3 := if cv.1.2 then vdestroy cv.1.1 s2 else s2
      (m2, s3)
    | _ => (m, s)
end


/-! ## Properties (`qitype/details/property.hxx`) -/

/-- State of a `PropertyImpl<T>`: the stored `_value` and the log of signal
emissions (`(*this)(_value)` appends the emitted value). -/
structure PropState (T : Type) where
  value : T
  emitted : List T

/-- `PropertyImpl<T>::set` (`property.hxx:42-56`).  A custom setter receives
the stored value (by mutable reference, modelled as the first component of
its result) and the new value, and returns whether the write is accepted. -/
def propertySet {T : Type} (setter : Option (T → T → T × Bool))
    (st : PropState T) (v : T) : PropState T :=
  match setter with
  | some f =>
    let r := f st.value v
    if r.2 then { value := r.1, emitted := st.emitted ++ [r.1] }
    else { st with value := r.1 }
  | none => { value := v, emitted := st.emitted ++ [v] }

/-- `GenericProperty::set` (`property.hxx:14-23`): convert the argument to
the declared type; throw `std::runtime_error` if the conversion returned a
null-typed result; otherwise store the converted value (the stored
`GenericValue` clones it) and destroy the owning temporary. -/
def gpSet (fuel : Nat) (declaredTy : Ty) (v : Value) (s : CState) :
    Except String (Value × CState) :=
  let conv := convert fuel v declaredTy s
  if isNull conv.1.1 then .error "Failed converting"
  else
    let s2 := if conv.1.2 then vdestroy conv.1.1 conv.2 else conv.2
    .ok (conv.1.1, s2)

/-! ## File log handler (`src/fileloghandler.cpp`) -/

/-- A stdio `FILE` structure; what matters to this model is the underlying
open-file descriptor it carries. -/
structure FileStruct where
  fd : Nat
deriving DecidableEq, Repr

/-- Heap of `FILE` structures (addresses to structures), an allocation
counter, and the log of descriptors passed to `fclose`. -/
structure LogWorld where
  next : Nat
  heap : Nat → FileStruct
  closed : List Nat

/-- A `FileLogHandler`: holds `fFile`, a possibly-null `FILE*`. -/
structure FileLogHandler where
  fFile : Option Nat

/-- The copy constructor (`fileloghandler.cpp:45-49`):
`fFile(new FILE)` allocates a fresh `FILE` structure and `*fFile = *rhs.fFile`
copies the structure's contents into it — a struct-level shallow copy, so the
copy's structure carries the same underlying descriptor as the original's.
(When `rhs.fFile` is null the source dereferences a null pointer; the model
leaves the fresh structure with the heap's prior contents.) -/
def copyCtor (w : LogWorld) (rhs : FileLogHandler) : FileLogHandler × LogWorld :=
  match rhs.fFile with
  | some a =>
    (⟨some w.next⟩,
     { w with next := w.next + 1,
              heap := fun x => if x = w.next then w.heap a else w.heap x })
  | none => (⟨some w.next⟩, { w with next := w.next + 1 })

/-- The destructor (`fileloghandler.cpp:57-61`): `fclose(fFile)` when the
pointer is non-null, closing the underlying descriptor of the structure. -/
def dtor (w : LogWorld) (h : FileLogHandler) : LogWorld :=
  match h.fFile with
  | none => w
  | some a => { w with closed := w.closed ++ [(w.heap a).fd] }

/-- `CATSIZEMAX` (`fileloghandler.cpp:17`). -/
def CATSIZEMAX : Nat := 16

/-- `FileLogHandler::cutCat` (`fileloghandler.cpp:63-77`): the contents of
the output buffer `res[0..CATSIZEMAX]` — 16 characters followed by the NUL
terminator written at `res[CATSIZEMAX]`. -/
def cutCat (category : List Char) : List Char :=
  (if category.length < CATSIZEMAX then
    -- memset(res, chr 32, 16); memcpy(res, category, strlen(category))
    category ++ List.replicate (CATSIZEMAX - category.length) (Char.ofNat 32)
  else
    -- memset(res, chr 46, 16);
    -- memcpy(res + 3, category + categorySize - CATSIZEMAX + 3, CATSIZEMAX - 3)
    List.replicate 3 (Char.ofNat 46) ++
      (category.drop (category.length - CATSIZEMAX + 3)).take (CATSIZEMAX - 3))
  ++ [Char.ofNat 0]

/-! ## URL resolution (spec sections 4.F, 4.G and 6; pinned by
`tests/messaging/net/test_resolve.cpp`).  The resolver implementation
headers are not under `src/`, so these components are modelled from the
spec, with concrete behaviour pinned by the repository's tests. -/

/-- Modelled from the spec (section 6, error code surface). -/
inductive ErrorCode where
  | success | badAddress | hostNotFound | connectionRefused | timedOut
  | cancelled | disconnected | handshakeFailed | protocolError | notFound
  | conversionFailed | overflow
deriving DecidableEq, Repr

/-- Modelled from the spec (section 3): one result of DNS resolution — an
address literal plus a family bit. -/
structure Entry where
  isIpV6 : Bool
  host : String
deriving DecidableEq, Repr

/-- Modelled from the spec (sections 3 and 6): the parsed form of
`scheme "://" host ":" port`. -/
structure Url where
  scheme : List Char
  host : List Char
  port : Nat
deriving DecidableEq, Repr

/-- Split a character stream at the first occurrence of `"://"`. -/
def splitScheme : List Char → Option (List Char × List Char)
  | [] => none
  | ':' :: '/' :: '/' :: rest => some ([], rest)
  | c :: rest =>
    match splitScheme rest with
    | some (pre, post) => some (c :: pre, post)
    | none => none

/-- Split a character stream at the last colon. -/
def splitLastColon : List Char → Option (List Char × List Char)
  | [] => none
  | c :: rest =>
    match splitLastColon rest with
    | some (pre, post) => some (c :: pre, post)
    | none => if c = ':' then some ([], rest) else none

/-- Decimal digits to a number; `none` on a non-digit. -/
def digitsToNatAux : Nat → List Char → Option Nat
  | acc, [] => some acc
  | acc, c :: rest =>
    if c.isDigit then digitsToNatAux (acc * 10 + (c.toNat - 48)) rest else none

/-- A non-empty all-digit stream to its number. -/
def digitsToNat : List Char → Option Nat
  | [] => none
  | cs => digitsToNatAux 0 cs

/-- Modelled from the spec (section 6 URL grammar, section 3 URL validity):
a URL is valid only if the scheme is `tcp` or `tcps`, the host is
non-empty, and the port is present and in `[1, 65535]` — a missing port or
port zero is invalid (spec boundary scenarios 4 and 5). -/
def parseUrlChars (s : List Char) : Option Url :=
  match splitScheme s with
  | none => none
  | some (sch, rest) =>
    if sch = ['t', 'c', 'p'] ∨ sch = ['t', 'c', 'p', 's'] then
      match splitLastColon rest with
      | none => none
      | some (h, p) =>
        match digitsToNat p with
        | none => none
        | some n =>
          if h ≠ [] ∧ 1 ≤ n ∧ n ≤ 65535 then some ⟨sch, h, n⟩ else none
    else none

/-- `parseUrlChars` on the text of a URL. -/
def parseUrl (s : String) : Option Url := parseUrlChars s.data

/-- Modelled from the spec (section 4.F): `findFirstValidIfAny` scans the
resolver entries in order and returns the first admissible one, an entry
being admissible iff it is IPv4 or IPv6 is allowed; empty when none is.
The concrete behaviour is pinned by the repository test
`NetFindFirstValidIfAny` (`test_resolve.cpp:148-188`), which requires the
first entry in order — with no IPv4-over-IPv6 preference — when IPv6 is
allowed. -/
def findFirstValidIfAny (entries : List Entry) (ipV6Allowed : Bool) : Option Entry :=
  entries.find? (fun e => !e.isIpV6 || ipV6Allowed)

/-- Modelled from the spec (section 4.F): `ResolveUrlList` validates the URL
and completes synchronously with `BadAddress` before any DNS lookup (the
abstract `dns` function is consulted only on a valid URL); on a valid URL it
passes the resolver's entry sequence on. -/
def resolveUrlList (dns : Url → List Entry) (s : String) : ErrorCode × List Entry :=
  match parseUrl s with
  | none => (.badAddress, [])
  | some u => (.success, dns u)

/-- Modelled from the spec (section 4.F): `ResolveUrl` runs `ResolveUrlList`
then applies `findFirstValidIfAny` under the IPv6 policy. -/
def resolveUrl (dns : Url → List Entry) (ipV6Allowed : Bool) (s : String) :
    ErrorCode × Option Entry :=
  match resolveUrlList dns s with
  | (.success, es) => (.success, findFirstValidIfAny es ipV6Allowed)
  | (e, _) => (e, none)

/-- Modelled from the spec (section 4.G): `ConnectSocket` resolves to a
single entry and then attempts the TCP connection and optional TLS handshake
(abstracted as `attempt`); resolution errors complete the pipeline verbatim,
and an empty resolution completes with the resolver's error. -/
def connectSocket (dns : Url → List Entry) (attempt : Entry → ErrorCode)
    (ipV6Allowed : Bool) (s : String) : ErrorCode :=
  match resolveUrl dns ipV6Allowed s with
  | (.success, some e) => attempt e
  | (.success, none) => .hostNotFound
  | (e, _) => e

/-- Modelled from the spec (section 4.G): the error-code-to-string encoding
used when the future flavour reports through `complete().error()`. -/
def errorToString : ErrorCode → String
  | .success => "success" | .badAddress => "badAddress"
  | .hostNotFound => "hostNotFound" | .connectionRefused => "connectionRefused"
  | .timedOut => "timedOut" | .cancelled => "cancelled"
  | .disconnected => "disconnected" | .handshakeFailed => "handshakeFailed"
  | .protocolError => "protocolError" | .notFound => "notFound"
  | .conversionFailed => "conversionFailed" | .overflow => "overflow"

/-- Modelled from the spec (section 4.G): decoding the reported error string
back into the error-code taxonomy (unknown strings are a programming
error, modelled as `protocolError`). -/
def stringToError (s : String) : ErrorCode :=
  if s = "success" then .success
  else if s = "badAddress" then .badAddress
  else if s = "hostNotFound" then .hostNotFound
  else if s = "connectionRefused" then .connectionRefused
  else if s = "timedOut" then .timedOut
  else if s = "cancelled" then .cancelled
  else if s = "disconnected" then .disconnected
  else if s = "handshakeFailed" then .handshakeFailed
  else if s = "protocolError" then .protocolError
  else if s = "notFound" then .notFound
  else if s = "conversionFailed" then .conversionFailed
  else if s = "overflow" then .overflow
  else .protocolError

/-- Modelled from the spec (section 4.G): `ConnectSocketFuture` runs the same
pipeline; `complete()` reports the error as a string which the caller
decodes back into the taxonomy. -/
def connectSocketFuture (dns : Url → List Entry) (attempt : Entry → ErrorCode)
    (ipV6Allowed : Bool) (s : String) : ErrorCode :=
  stringToError (errorToString (connectSocket dns attempt ipV6Allowed s))


/-! ## Theorems -/

/-- `bytesLt` is asymmetric. -/
theorem bytesLt_asymm : ∀ x y : List Nat, bytesLt x y = true → bytesLt y x = false := by
  intro x
  induction x with
  | nil => intro y h; simp [bytesLt] at h
  | cons a as ih =>
    intro y h
    cases y with
    | nil => simp [bytesLt] at h
    | cons b bs =>
      simp only [bytesLt] at h ⊢
      by_cases h1 : a < b
      · have h2 : ¬ b < a := by omega
        simp [h1, h2]
      · by_cases h2 : b < a
        · simp [h1, h2] at h
        · simp [h1, h2] at h ⊢
          exact ih bs h

/-- `addrLex` is asymmetric. -/
theorem addrLex_asymm : ∀ x y : List Nat, addrLex x y = true → addrLex y x = false := by
  intro x
  induction x with
  | nil => intro y h; simp [addrLex] at h
  | cons a as ih =>
    intro y h
    cases y with
    | nil => simp [addrLex] at h
    | cons b bs =>
      simp only [addrLex] at h ⊢
      by_cases h1 : a < b
      · have h2 : ¬ b < a := by omega
        simp [h1, h2]
      · by_cases h2 : b < a
        · simp [h1, h2] at h
        · simp [h1, h2] at h ⊢
          exact ih bs h

/-- The element-wise list loop is asymmetric provided the element
comparison is asymmetric on the elements involved. -/
theorem vltList_asymm_of : ∀ (xs ys : List Value),
    (∀ x ∈ xs, ∀ y ∈ ys, vlt x y = true → vlt y x = false) →
    vltList xs ys = true → vltList ys xs = false := by
  intro xs
  induction xs with
  | nil => intro ys hIH h; simp [vltList] at h
  | cons x xs ih =>
    intro ys hIH h
    cases ys with
    | nil => simp [vltList] at h
    | cons y ys =>
      simp only [vltList] at h ⊢
      by_cases h1 : vlt x y = true
      · have h2 : vlt y x = false := hIH x (by simp) y (by simp) h1
        simp [h1, h2]
      · by_cases h2 : vlt y x = true
        · simp [h1, h2] at h
        · simp [h1, h2] at h ⊢
          exact ih ys (fun a ha b hb => hIH a (by simp [ha]) b (by simp [hb])) h

/-- Asymmetry of `operator<`, by strong induction on the size of the first
argument (the recursion only descends through list elements). -/
theorem vlt_asymm_aux : ∀ (n : Nat) (a b : Value), sizeOf a ≤ n →
    vlt a b = true → vlt b a = false := by
  intro n
  induction n with
  | zero => intro a b hle h; cases a <;> simp_arith at hle
  | succ n ih =>
    intro a b hle h
    cases a <;> cases b <;>
      simp_all only [vlt, isNull, kindOf, Kind.toNat, addrOf, ne_eq,
        Bool.not_eq_true, decide_eq_true_eq, decide_eq_false_iff_not,
        Bool.not_true, Bool.not_false, if_true, if_false, reduceCtorEq,
        not_false_eq_true, not_true_eq_false, reduceIte] <;>
      first
      | rfl
      | omega
      | exact absurd h (by omega)
      | (exact lt_asymm h)
      | skip
    case vstr.vstr x y =>
      by_cases hl : x.length = y.length
      · rw [if_pos hl] at h
        rw [if_pos hl.symm]
        exact bytesLt_asymm x y h
      · rw [if_neg hl] at h
        have hl2 : ¬ y.length = x.length := fun hc => hl hc.symm
        rw [if_neg hl2]
        simp only [decide_eq_true_eq] at h
        simp only [decide_eq_false_iff_not]
        omega
    case vlist.vlist e1 xs e2 ys =>
      by_cases hl : xs.length = ys.length
      · rw [if_pos hl] at h
        rw [if_pos hl.symm]
        refine vltList_asymm_of xs ys ?_ h
        intro x hx y hy hxy
        refine ih x y ?_ hxy
        have hx1 : sizeOf x < sizeOf xs := List.sizeOf_lt_of_mem hx
        simp only [Value.vlist.sizeOf_spec] at hle
        omega
      · rw [if_neg hl] at h
        have hl2 : ¬ ys.length = xs.length := fun hc => hl hc.symm
        rw [if_neg hl2]
        simp only [decide_eq_true_eq] at h
        simp only [decide_eq_false_iff_not]
        omega
    case vmap.vmap k1 v1 xs k2 v2 ys =>
      by_cases hl : xs.length = ys.length
      · rw [if_pos hl] at h
        rw [if_pos hl.symm]
        exact addrLex_asymm _ _ h
      · rw [if_neg hl] at h
        have hl2 : ¬ ys.length = xs.length := fun hc => hl hc.symm
        rw [if_neg hl2]
        simp only [decide_eq_true_eq] at h
        simp only [decide_eq_false_iff_not]
        omega

/-- Asymmetry of `operator<`. -/
theorem vlt_asymm (a b : Value) (h : vlt a b = true) : vlt b a = false :=
  vlt_asymm_aux (sizeOf a) a b (le_refl _) h

/-- C3 (amended): for all Values `a`, `b` that are not both of Iterator kind
with equal `TypeInfo`, exactly one of `a < b`, `b < a`, `a == b` holds
(equality being `!(a<b) && !(b<a)` there). -/
theorem c3_trichotomy (a b : Value) (hIter : sameInfoIter a b = false) :
    exactlyOne (vlt a b) (vlt b a) (veq a b) = true := by
  cases h1 : vlt a b with
  | true =>
    have h2 := vlt_asymm a b h1
    simp [exactlyOne, veq, hIter, h1, h2]
  | false =>
    cases h2 : vlt b a with
    | true => simp [exactlyOne, veq, hIter, h1, h2]
    | false => simp [exactlyOne, veq, hIter, h1, h2]

/-- C3 witness: trichotomy at the concrete pair `Int32 1`, `Int32 2`. -/
theorem c3_trichotomy_witness :
    sameInfoIter (Value.vint true 32 1) (Value.vint true 32 2) = false
  ∧ exactlyOne (vlt (Value.vint true 32 1) (Value.vint true 32 2))
      (vlt (Value.vint true 32 2) (Value.vint true 32 1))
      (veq (Value.vint true 32 1) (Value.vint true 32 2)) = true :=
  ⟨rfl, c3_trichotomy _ _ rfl⟩

/-- C3 counterexample: two Iterator-kind values with the same `TypeInfo`
denoting the same position but held in distinct storage cells: `a < b`
holds by the pointer comparison of `operator<`, and `a == b` holds by the
structural `descriptor.equals` of `operator==`, so "exactly one of `a<b`,
`b<a`, `a==b`" fails. -/
theorem c3_counterexample :
    vlt (Value.viter 0 1 5) (Value.viter 0 2 5) = true
  ∧ veq (Value.viter 0 1 5) (Value.viter 0 2 5) = true
  ∧ exactlyOne (vlt (Value.viter 0 1 5) (Value.viter 0 2 5))
      (vlt (Value.viter 0 2 5) (Value.viter 0 1 5))
      (veq (Value.viter 0 1 5) (Value.viter 0 2 5)) = false := by
  have h1 : vlt (Value.viter 0 1 5) (Value.viter 0 2 5) = true := by
    simp [vlt, kindOf, addrOf]
  have h2 : vlt (Value.viter 0 2 5) (Value.viter 0 1 5) = false := by
    simp [vlt, kindOf, addrOf]
  have h3 : veq (Value.viter 0 1 5) (Value.viter 0 2 5) = true := by
    simp [veq, sameInfoIter, iterEquals]
  exact ⟨h1, h3, by simp [exactlyOne, h1, h2, h3]⟩

/-- `memcmp` on equal-length byte sequences agrees with lexicographic
byte order. -/
theorem bytesLt_iff_lex : ∀ x y : List Nat, x.length = y.length →
    (bytesLt x y = true ↔ List.Lex (· < ·) x y) := by
  intro x
  induction x with
  | nil =>
    intro y h
    cases y with
    | nil =>
      simp only [bytesLt]
      constructor
      · intro hb; cases hb
      · intro hl; cases hl
    | cons b bs => simp at h
  | cons a as ih =>
    intro y h
    cases y with
    | nil => simp at h
    | cons b bs =>
      simp only [bytesLt]
      constructor
      · intro hb
        by_cases h1 : a < b
        · exact List.Lex.rel h1
        · by_cases h2 : b < a
          · simp [h1, h2] at hb
          · have hab : a = b := by omega
            subst hab
            simp [h1, h2] at hb
            exact List.Lex.cons ((ih bs (by simpa using h)).1 hb)
      · intro hl
        cases hl with
        | rel h1 => simp [h1]
        | cons h2 =>
          have : ¬ a < a := lt_irrefl a
          simp [this]
          exact (ih bs (by simpa using h)).2 h2

/-- The spec-side element-wise lexicographic order on value sequences:
some pair decides (the first where one side is strictly less), all earlier
pairs being `<`-incomparable. -/
inductive SeqLex (lt : Value → Value → Bool) : List Value → List Value → Prop where
  | head {x y : Value} {xs ys : List Value} :
      lt x y = true → SeqLex lt (x :: xs) (y :: ys)
  | tail {x y : Value} {xs ys : List Value} :
      lt x y = false → lt y x = false → SeqLex lt xs ys → SeqLex lt (x :: xs) (y :: ys)

/-- The loop of the List/Map case agrees with `SeqLex`. -/
theorem vltList_iff_seqLex : ∀ xs ys, (vltList xs ys = true ↔ SeqLex vlt xs ys) := by
  intro xs
  induction xs with
  | nil =>
    intro ys
    cases ys with
    | nil =>
      simp only [vltList]
      exact ⟨fun hb => (nomatch hb), fun hl => (nomatch hl)⟩
    | cons b bs =>
      simp only [vltList]
      exact ⟨fun hb => (nomatch hb), fun hl => (nomatch hl)⟩
  | cons x xs ih =>
    intro ys
    cases ys with
    | nil =>
      simp only [vltList]
      exact ⟨fun hb => (nomatch hb), fun hl => (nomatch hl)⟩
    | cons y ys =>
      simp only [vltList]
      constructor
      · intro hb
        cases h1 : vlt x y with
        | true => exact .head h1
        | false =>
          cases h2 : vlt y x with
          | true => simp [h1, h2] at hb
          | false => exact .tail h1 h2 ((ih ys).1 (by simpa [h1, h2] using hb))
      · intro hl
        cases hl with
        | head h1 => simp [h1]
        | tail h1 h2 h3 =>
          simp only [h1, h2, Bool.false_eq_true, if_false]
          exact (ih ys).2 h3

/-- The key/value pair cell of a map entry, as the Tuple-kind value obtained
by dereferencing a map iterator. -/
def entryPairVal (k e : Ty) (ent : Nat × Value × Value) : Value :=
  .vtuple [k, e] ent.1 [ent.2.1, ent.2.2]

/-- Two map-entry pair cells compare by their storage addresses. -/
theorem vlt_entryPair (k e k2 e2 : Ty) (x y : Nat × Value × Value) :
    vlt (entryPairVal k e x) (entryPairVal k2 e2 y) = decide (x.1 < y.1) := by
  simp [entryPairVal, vlt, kindOf, addrOf]

/-- The pair-cell address comparison agrees with `SeqLex` over the
pair-cell values. -/
theorem addrLex_iff_seqLex (k1 v1 k2 v2 : Ty) :
    ∀ xs ys : List (Nat × Value × Value),
    (addrLex (xs.map (fun x => x.1)) (ys.map (fun x => x.1)) = true ↔
     SeqLex vlt (xs.map (entryPairVal k1 v1)) (ys.map (entryPairVal k2 v2))) := by
  intro xs
  induction xs with
  | nil =>
    intro ys
    cases ys with
    | nil =>
      simp only [List.map_nil, addrLex]
      exact ⟨fun hb => (nomatch hb), fun hl => (nomatch hl)⟩
    | cons b bs =>
      simp only [List.map_nil, List.map_cons, addrLex]
      exact ⟨fun hb => (nomatch hb), fun hl => (nomatch hl)⟩
  | cons x xs ih =>
    intro ys
    cases ys with
    | nil =>
      simp only [List.map_nil, List.map_cons, addrLex]
      exact ⟨fun hb => (nomatch hb), fun hl => (nomatch hl)⟩
    | cons y ys =>
      simp only [List.map_cons, addrLex]
      constructor
      · intro hb
        by_cases h1 : x.1 < y.1
        · exact .head (by simp [vlt_entryPair, h1])
        · by_cases h2 : y.1 < x.1
          · simp [h1, h2] at hb
          · refine .tail (by simp [vlt_entryPair, h1]) (by simp [vlt_entryPair, h2]) ?_
            exact (ih ys).1 (by simpa [h1, h2] using hb)
      · intro hl
        cases hl with
        | head h1 =>
          rw [vlt_entryPair] at h1
          simp only [decide_eq_true_eq] at h1
          rw [if_pos h1]
        | tail h1 h2 h3 =>
          rw [vlt_entryPair] at h1 h2
          simp only [decide_eq_false_iff_not] at h1 h2
          rw [if_neg h1, if_neg h2]
          exact (ih ys).2 h3

/-- C6: within String kind `operator<` is decided by memcmp of the byte
contents when the lengths agree, the shorter string being less otherwise;
within List and Map kinds the order is lexicographic, comparing lengths
first and then elements pairwise (for maps the iterated elements are the
key/value pair cells). -/
theorem c6_order_characterization :
    (∀ x y : List Nat, vlt (.vstr x) (.vstr y) = true ↔
        (x.length < y.length ∨ (x.length = y.length ∧ List.Lex (· < ·) x y)))
  ∧ (∀ (e1 e2 : Ty) (xs ys : List Value), vlt (.vlist e1 xs) (.vlist e2 ys) = true ↔
        (xs.length < ys.length ∨ (xs.length = ys.length ∧ SeqLex vlt xs ys)))
  ∧ (∀ (k1 v1 k2 v2 : Ty) (xs ys : List (Nat × Value × Value)),
        vlt (.vmap k1 v1 xs) (.vmap k2 v2 ys) = true ↔
        (xs.length < ys.length ∨ (xs.length = ys.length ∧
           SeqLex vlt (xs.map (entryPairVal k1 v1)) (ys.map (entryPairVal k2 v2))))) := by
  refine ⟨fun x y => ?_, fun e1 e2 xs ys => ?_, fun k1 v1 k2 v2 xs ys => ?_⟩
  · by_cases h : x.length = y.length
    · simp [vlt, kindOf, h, bytesLt_iff_lex x y h]
    · simp [vlt, kindOf, h]
  · by_cases h : xs.length = ys.length
    · simp [vlt, kindOf, h, vltList_iff_seqLex xs ys]
    · simp [vlt, kindOf, h]
  · by_cases h : xs.length = ys.length
    · simp [vlt, kindOf, h, addrLex_iff_seqLex k1 v1 k2 v2 xs ys]
    · simp [vlt, kindOf, h]

/-- C1 counterexample: for the entry sequence `[v6, v4]` with IPv6 allowed,
the claim demands the first IPv4 entry, but the scan returns the IPv6 entry
that comes first — exactly what the repository test
`NetFindFirstValidIfAny` (`test_resolve.cpp:175-179`) asserts. -/
theorem c1_counterexample :
    findFirstValidIfAny [⟨true, "10.11.12.15"⟩, ⟨false, "10.11.12.13"⟩] true
      = some ⟨true, "10.11.12.15"⟩
  ∧ (⟨false, "10.11.12.13"⟩ : Entry).isIpV6 = false
  ∧ ¬ (findFirstValidIfAny [⟨true, "10.11.12.15"⟩, ⟨false, "10.11.12.13"⟩] true
        = some ⟨false, "10.11.12.13"⟩) := by
  refine ⟨rfl, rfl, ?_⟩
  decide

/-- C1 (amended): with IPv6 disallowed, `findFirstValidIfAny` returns the
first IPv4 entry (none when there is none, in particular on empty input);
with IPv6 allowed it returns the first entry of the sequence regardless of
family (none only on empty input) — IPv4 entries are not preferred over
IPv6 entries when IPv6 is allowed. -/
theorem c1_firstValid (es : List Entry) :
    findFirstValidIfAny es false = es.find? (fun e => !e.isIpV6)
  ∧ findFirstValidIfAny es true = es.head? := by
  constructor
  · simp [findFirstValidIfAny]
  · induction es with
    | nil => rfl
    | cons e es ih => simp [findFirstValidIfAny]

/-- C2: converting the List<Int32> `[1, 2, 3]` to List<Int64> yields a new
owning list with the same contents; but converting the List<Int64>
`[2^40]` to List<Int32> — where the element conversion overflows and fails
— does NOT return a null-descriptor result: the List case of `convert`
never checks the element conversion for failure (unlike the Map and Tuple
cases) and returns an owning list holding the failed (null) element. -/
theorem c2_list_convert :
    (convert 100 (Value.vlist (Ty.int true 32)
        [.vint true 32 1, .vint true 32 2, .vint true 32 3])
      (Ty.list (Ty.int true 64)) st0).1
      = (Value.vlist (Ty.int true 64)
          [.vint true 64 1, .vint true 64 2, .vint true 64 3], true)
  ∧ (convert 100 (Value.vlist (Ty.int true 64) [.vint true 64 (2 ^ 40)])
      (Ty.list (Ty.int true 32)) st0).1
      = (Value.vlist (Ty.int true 32) [Value.null], true) :=
  ⟨rfl, rfl⟩

/-- C4: each of the five literal invalid URLs completes with `BadAddress`
in all four pipelines — for every DNS function, connection attempt and
IPv6 policy, so the outcome is decided before any DNS lookup. -/
theorem c4_badAddress (dns : Url → List Entry) (attempt : Entry → ErrorCode)
    (b : Bool) (u : String)
    (hu : u ∈ ["", "abcd", "10.12.14.15.16", "tcp://10.12.14.15", "tcp://10.12.14.15:0"]) :
    (resolveUrlList dns u).1 = .badAddress
  ∧ (resolveUrl dns b u).1 = .badAddress
  ∧ connectSocket dns attempt b u = .badAddress
  ∧ connectSocketFuture dns attempt b u = .badAddress := by
  have hp : parseUrl u = none := by
    fin_cases hu <;> rfl
  have h1 : resolveUrlList dns u = (.badAddress, []) := by
    simp [resolveUrlList, hp]
  have h2 : resolveUrl dns b u = (.badAddress, none) := by
    simp [resolveUrl, h1]
  have h3 : connectSocket dns attempt b u = .badAddress := by
    simp [connectSocket, h2]
  refine ⟨by simp [h1], by simp [h2], h3, ?_⟩
  simp [connectSocketFuture, h3, errorToString, stringToError]

/-- C4 witness: the concrete port-zero URL under the empty DNS map. -/
theorem c4_badAddress_witness :
    (resolveUrlList (fun _ => []) "tcp://10.12.14.15:0").1 = .badAddress
  ∧ (resolveUrl (fun _ => []) false "tcp://10.12.14.15:0").1 = .badAddress
  ∧ connectSocket (fun _ => []) (fun _ => .success) false "tcp://10.12.14.15:0" = .badAddress
  ∧ connectSocketFuture (fun _ => []) (fun _ => .success) false "tcp://10.12.14.15:0" = .badAddress :=
  c4_badAddress (fun _ => []) (fun _ => .success) false "tcp://10.12.14.15:0" (by decide)

/-- C5: the error paths of the Tuple case (member conversion failure after
an earlier member converted owning) and of the Map case (element conversion
failure after the key converted owning) return without destroying the
owning intermediate: one owning value was produced (`owned = 1`), no
`destroy()` ran (`destroyed = 0`), and the conversion returned the null
failure result. -/
theorem c5_leak_on_error :
    convert 100 (Value.vtuple [Ty.int true 32, Ty.str] 0 [.vint true 32 1, .vstr [120]])
        (Ty.tuple [Ty.int true 64, Ty.int true 32]) st0
      = ((Value.null, false), ⟨0, 1, 0⟩)
  ∧ convert 100 (Value.vmap (Ty.int true 32) Ty.str [(0, .vint true 32 1, .vstr [120])])
        (Ty.map (Ty.int true 64) (Ty.int true 32)) st0
      = ((Value.null, false), ⟨0, 1, 0⟩) :=
  ⟨rfl, rfl⟩

/-- C7: copy-constructing a `FileLogHandler` that holds an open file and
then destroying both the original and the copy closes the same underlying
open file twice: the copy's fresh `FILE` structure carries the same
descriptor, and each destructor `fclose`s it. -/
theorem c7_double_close (w : LogWorld) (h : FileLogHandler) (a fd : Nat)
    (hf : h.fFile = some a) (ha : a < w.next) (hfd : w.heap a = ⟨fd⟩) :
    (dtor (dtor (copyCtor w h).2 h) (copyCtor w h).1).closed
      = w.closed ++ [fd, fd] := by
  have hne : a ≠ w.next := Nat.ne_of_lt ha
  simp [copyCtor, dtor, hf, hne, hfd]

/-- C7 witness: a world with one open file of descriptor 7. -/
theorem c7_double_close_witness :
    (dtor (dtor (copyCtor ⟨1, fun _ => ⟨7⟩, []⟩ ⟨some 0⟩).2 ⟨some 0⟩)
       (copyCtor ⟨1, fun _ => ⟨7⟩, []⟩ ⟨some 0⟩).1).closed = [7, 7] := by
  simpa using c7_double_close ⟨1, fun _ => ⟨7⟩, []⟩ ⟨some 0⟩ 0 7 rfl (by decide) rfl

/-- C8: `cutCat` writes exactly `CATSIZEMAX` (16) characters plus a NUL
terminator: a category shorter than 16 characters is copied verbatim and
right-padded with spaces; a category of length at least 16 is rendered as
three dots followed by the last 13 characters of the category. -/
theorem c8_cutCat (cat : List Char) :
    (cutCat cat).length = CATSIZEMAX + 1
  ∧ (cutCat cat).getLast? = some (Char.ofNat 0)
  ∧ (cat.length < CATSIZEMAX →
      cutCat cat = cat ++ List.replicate (CATSIZEMAX - cat.length) (Char.ofNat 32)
        ++ [Char.ofNat 0])
  ∧ (CATSIZEMAX ≤ cat.length →
      cutCat cat = List.replicate 3 (Char.ofNat 46) ++ (cat.reverse.take 13).reverse
        ++ [Char.ofNat 0]) := by
  refine ⟨?_, ?_, ?_, ?_⟩
  · by_cases hl : cat.length < CATSIZEMAX
    · rw [cutCat, if_pos hl]
      simp only [CATSIZEMAX] at hl ⊢
      simp only [List.length_append, List.length_replicate, List.length_cons,
        List.length_nil]
      omega
    · rw [cutCat, if_neg hl]
      simp only [CATSIZEMAX] at hl ⊢
      simp only [List.length_append, List.length_replicate, List.length_take,
        List.length_drop, List.length_cons, List.length_nil]
      omega
  · rw [cutCat, List.getLast?_append_of_ne_nil _ (by simp)]
    rfl
  · intro hl
    rw [cutCat, if_pos hl]
  · intro hl
    have hnl : ¬ cat.length < CATSIZEMAX := not_lt.mpr hl
    have harith : cat.length - CATSIZEMAX + 3 = cat.length - 13 := by
      simp [CATSIZEMAX] at hl ⊢
      omega
    have hdroplen : (cat.drop (cat.length - 13)).length = 13 := by
      simp [CATSIZEMAX] at hl
      simp [List.length_drop]
      omega
    have htake : (cat.drop (cat.length - 13)).take (CATSIZEMAX - 3)
        = cat.drop (cat.length - 13) := by
      apply List.take_of_length_le
      simp [hdroplen, CATSIZEMAX]
    have hrt : (cat.reverse.take 13).reverse = cat.drop (cat.length - 13) := by
      rw [← List.rtake_eq_reverse_take_reverse, List.rtake]
    rw [cutCat, if_neg hnl, harith, htake, hrt]

/-- C8 witness: the literal category `qi.log.fileloghandler` (length 21) is
rendered as three dots plus its last 13 characters. -/
theorem c8_cutCat_witness :
    CATSIZEMAX ≤ ("qi.log.fileloghandler".data).length
  ∧ cutCat ("qi.log.fileloghandler".data)
      = List.replicate 3 (Char.ofNat 46)
        ++ (("qi.log.fileloghandler".data).reverse.take 13).reverse ++ [Char.ofNat 0] :=
  ⟨by decide, (c8_cutCat _).2.2.2 (by decide)⟩

/-- C9: `PropertyImpl<T>::set` emits the property's signal, with the stored
value, exactly when no custom setter was supplied or the custom setter
returned true; when the setter returns false nothing is emitted. -/
theorem c9_property_set {T : Type} (setter : Option (T → T → T × Bool))
    (st : PropState T) (v : T) :
    (propertySet setter st v).emitted
      = st.emitted ++ (if (match setter with
            | none => true
            | some f => (f st.value v).2) = true
          then [(propertySet setter st v).value] else []) := by
  cases setter with
  | none => simp [propertySet]
  | some f => cases hf : (f st.value v).2 <;> simp [propertySet, hf]

/-- The error-case test of an `Except` result. -/
def isErr {α : Type} : Except String α → Bool
  | .error _ => true
  | .ok _ => false

/-- C10: `GenericProperty::set` throws exactly when `convert` returns a
null-typed result; on success it stores the converted value and, when the
conversion was owning, destroys the converted temporary before
returning. -/
theorem c10_generic_property_set (fuel : Nat) (t : Ty) (v : Value) (s : CState) :
    (isErr (gpSet fuel t v s) = true ↔ isNull (convert fuel v t s).1.1 = true)
  ∧ (isNull (convert fuel v t s).1.1 = false →
      gpSet fuel t v s = .ok ((convert fuel v t s).1.1,
        if (convert fuel v t s).1.2 = true
        then vdestroy (convert fuel v t s).1.1 (convert fuel v t s).2
        else (convert fuel v t s).2)) := by
  cases hn : isNull (convert fuel v t s).1.1 <;> simp [gpSet, isErr, hn]

/-- C10 witness: setting an Int32 value on an Int64-typed property converts
(owning), stores the converted value, and destroys the temporary. -/
theorem c10_generic_property_set_witness :
    isNull (convert 10 (Value.vint true 32 5) (Ty.int true 64) st0).1.1 = false
  ∧ gpSet 10 (Ty.int true 64) (Value.vint true 32 5) st0
      = .ok (Value.vint true 64 5, ⟨0, 1, 1⟩) := by
  have h := (c10_generic_property_set 10 (Ty.int true 64) (Value.vint true 32 5) st0).2 rfl
  exact ⟨rfl, h.trans rfl⟩
end LibQi
